import Mathlib

/-!
Shallow embedding of the note lifecycle synchronization layer of
`src/frontend/src/App.tsx` (a React notes client).

The client state is the collection of `useState` hooks of `App`; each
asynchronous operation (`loadNotes`, `addNote`, `saveEdit`, `deleteNote`)
is split at its single `await` into a `_start` function (the synchronous
prefix up to and including issuing the request) and a `_complete` function
(the continuation applied when the store's response arrives, given as
`Except.ok payload` for a 2xx response and `Except.error msg` for a
failure thrown by `api`).  Synchronous operations (`startEdit`,
`cancelEdit`) are single functions.
-/

/-- Note record shape returned by the store:
`{ id: number; text: string; created_at: string; updated_at: string }`. -/
structure Note where
  id : Nat
  text : String
  created_at : String
  updated_at : String
deriving Repr, DecidableEq

/-- Response body of `DELETE /notes/{id}`: `{ deleted: boolean; id: number }`. -/
structure DeleteResp where
  deleted : Bool
  id : Nat
deriving Repr, DecidableEq

/-- The `useState` fields of `App` (App.tsx lines 31-43).  The spec calls
`err` "lastError", `isAdding` "creating", and `editingText` "editingDraft". -/
structure AppState where
  notes : List Note
  newText : String
  err : String
  isLoading : Bool
  isAdding : Bool
  deletingId : Option Nat
  editingId : Option Nat
  editingText : String
  savingEdit : Bool
deriving Repr, DecidableEq

/-- JavaScript `String.prototype.trim`: remove leading and trailing
whitespace.  List-based embedding of the `.trim()` calls in App.tsx. -/
def jsTrim (s : String) : String :=
  String.mk
    (((s.data.dropWhile Char.isWhitespace).reverse.dropWhile Char.isWhitespace).reverse)

/-- `API_BASE` with trailing slashes stripped from the override, embedding
`VITE_API_URL.replace(/\/+$/, "")` from App.tsx line 7: the regex removes
every trailing `/` character. -/
def stripTrailingSlashes (s : String) : String :=
  String.mk ((s.data.reverse.dropWhile (fun c => c = '/')).reverse)

/-- `API_BASE` (App.tsx lines 5-8).  `none` models an unset `VITE_API_URL`;
an empty override string is falsy in JavaScript, so it also selects the
bare `"/api"` branch. -/
def API_BASE (override : Option String) : String :=
  match override with
  | some u => if u = "" then "/api" else stripTrailingSlashes u ++ "/api"
  | none => "/api"

/-- Error normalization of `api` (App.tsx lines 19-22): on a non-2xx
response the thrown message is the body text when non-empty, otherwise
the synthesized message with the status code
(`throw new Error(text || Request failed (status))`). -/
def apiErrorMessage (body : String) (status : Nat) : String :=
  if body = "" then "Request failed (" ++ toString status ++ ")" else body

/-- `res.ok`: status in the 2xx range. -/
def resOk (status : Nat) : Bool := 200 ≤ status && status < 300

/-- Outcome of `api` as seen by the controller: `none` when the response is
2xx (success path), otherwise the thrown error message. -/
def apiError (status : Nat) (body : String) : Option String :=
  if resOk status then none else some (apiErrorMessage body status)

/-- `loadNotes` up to its `await` (App.tsx lines 47-49):
`setErr(""); setIsLoading(true)` then `GET /notes` is issued.  The
function has no guard of its own. -/
def loadNotes_start (s : AppState) : AppState :=
  { s with err := "", isLoading := true }

/-- Continuation of `loadNotes` (App.tsx lines 50-57): success replaces
`notes` wholesale; failure stores the message in `err`; `finally`
clears `isLoading`. -/
def loadNotes_complete (s : AppState) (r : Except String (List Note)) : AppState :=
  match r with
  | Except.ok data => { s with notes := data, isLoading := false }
  | Except.error m => { s with err := m, isLoading := false }

/-- `addNote` up to its `await` (App.tsx lines 64-72): the trimmed draft
must be non-empty and `isAdding` false, otherwise the handler returns
having issued no request and changed no state.  The boolean reports
whether the `POST /notes` request was issued. -/
def addNote_start (s : AppState) : AppState × Bool :=
  let t := jsTrim s.newText
  if t = "" ∨ s.isAdding = true then (s, false)
  else ({ s with err := "", isAdding := true }, true)

/-- Continuation of `addNote` (App.tsx lines 73-82): success prepends the
returned record and clears the input draft; failure stores the message;
`finally` clears `isAdding`. -/
def addNote_complete (s : AppState) (r : Except String Note) : AppState :=
  match r with
  | Except.ok created =>
      { s with notes := created :: s.notes, newText := "", isAdding := false }
  | Except.error m => { s with err := m, isAdding := false }

/-- `startEdit` (App.tsx lines 85-89): clears the error and seeds the edit
session from the given note.  The function itself carries no guard; the
rejection required by the spec lives in the Edit button's `disabled`
attribute, see `editButtonDisabled`. -/
def startEdit (s : AppState) (note : Note) : AppState :=
  { s with err := "", editingId := some note.id, editingText := note.text }

/-- The Edit button for row `n` is disabled when
`editingId !== null || isDeleting` where `isDeleting` is
`deletingId === n.id` (App.tsx, notes list rendering). -/
def editButtonDisabled (s : AppState) (n : Note) : Bool :=
  s.editingId.isSome || s.deletingId == some n.id

/-- Clicking the Edit button of row `n`: a disabled button never fires its
`onClick`, so `startEdit` runs only when `editButtonDisabled` is false. -/
def clickEditButton (s : AppState) (n : Note) : AppState :=
  if editButtonDisabled s n then s else startEdit s n

/-- `cancelEdit` (App.tsx lines 91-95): unconditionally clears the edit
session fields. -/
def cancelEdit (s : AppState) : AppState :=
  { s with editingId := none, editingText := "", savingEdit := false }

/-- `saveEdit` up to its `await` (App.tsx lines 97-103): requires an open
session, a non-empty trimmed draft and `savingEdit` false; otherwise it
returns with no request and no state change.  On issue, the request
`PUT /notes/{editingId}` carries the trimmed draft, returned here as
`some (id, trimmedText)`. -/
def saveEdit_start (s : AppState) : AppState × Option (Nat × String) :=
  match s.editingId with
  | none => (s, none)
  | some eid =>
      let t := jsTrim s.editingText
      if t = "" ∨ s.savingEdit = true then (s, none)
      else ({ s with err := "", savingEdit := true }, some (eid, t))

/-- Continuation of `saveEdit` (App.tsx lines 104-115): success replaces
every note whose id equals the returned record's id and then runs
`cancelEdit`; failure stores the message and clears `savingEdit` only
(the session and draft survive). -/
def saveEdit_complete (s : AppState) (r : Except String Note) : AppState :=
  match r with
  | Except.ok updated =>
      cancelEdit
        { s with notes := s.notes.map (fun n => if n.id = updated.id then updated else n) }
  | Except.error m => { s with err := m, savingEdit := false }

/-- `deleteNote` up to its `await` (App.tsx lines 118-122): a no-op when a
deletion is already in flight (`deletingId !== null`); otherwise records
the target id and issues `DELETE /notes/{id}`.  The boolean reports
whether the request was issued. -/
def deleteNote_start (s : AppState) (id : Nat) : AppState × Bool :=
  if s.deletingId.isSome then (s, false)
  else ({ s with err := "", deletingId := some id }, true)

/-- Continuation of `deleteNote` (App.tsx lines 123-131): success filters
out the target id and, when the open edit session targets that same id,
runs `cancelEdit`; failure stores the message; `finally` clears
`deletingId`. -/
def deleteNote_complete (s : AppState) (id : Nat) (r : Except String DeleteResp) : AppState :=
  match r with
  | Except.ok _ =>
      let s1 := { s with notes := s.notes.filter (fun n => n.id != id) }
      let s2 := if s.editingId = some id then cancelEdit s1 else s1
      { s2 with deletingId := none }
  | Except.error m => { s with err := m, deletingId := none }

/-- The initial `useState` values of `App` (App.tsx lines 31-43):
`isLoading` starts true and the mount effect immediately runs
`loadNotes`. -/
def appInit : AppState :=
  { notes := [], newText := "", err := "", isLoading := true, isAdding := false,
    deletingId := none, editingId := none, editingText := "", savingEdit := false }

/-- Concrete notes used by the witness theorems. -/
def note1A : Note := { id := 1, text := "a", created_at := "t0", updated_at := "t0" }

/-- Second concrete note used by the witness theorems. -/
def note2 : Note := { id := 2, text := "b", created_at := "t1", updated_at := "t1" }

/-- Update record (id 2, new text) used by the witness theorems. -/
def note2B : Note := { id := 2, text := "B", created_at := "t1", updated_at := "t2" }

/-- A settled state holding two notes, used by the witness theorems. -/
def twoNotesState : AppState :=
  { appInit with isLoading := false, notes := [note1A, note2] }

/-- A settled state with an open edit session on id 5 and draft `"hello"`. -/
def editingState : AppState :=
  { appInit with isLoading := false, editingId := some 5, editingText := "hello" }

/-- A settled state whose input draft and edit draft are all-whitespace,
with an open edit session on id 1. -/
def blockedState : AppState :=
  { appInit with isLoading := false, newText := " ", editingId := some 1, editingText := " " }

/-- A settled idle state with a non-empty input draft, used by the witness
theorems for the failure paths. -/
def idleState : AppState :=
  { appInit with isLoading := false, newText := " hi " }

/-- Modelled from the spec: the Notes Store (the backend behind the §6
contract is not part of src/): a persistent table of note records with
store-assigned, immutable, unique ids and timestamps.  `nextId` is the
fresh-id counter, `clock` stamps timestamps. -/
structure Store where
  table : List Note
  nextId : Nat
  clock : Nat
deriving Repr, DecidableEq

/-- Modelled from the spec: `GET /notes` returns the full collection. -/
def Store.listNotes (st : Store) : List Note := st.table

/-- Modelled from the spec: `POST /notes` inserts a record with a fresh id
and equal timestamps and returns it. -/
def Store.createNote (st : Store) (t : String) : Store × Note :=
  let n : Note :=
    { id := st.nextId, text := t, created_at := toString st.clock, updated_at := toString st.clock }
  ({ table := st.table ++ [n], nextId := st.nextId + 1, clock := st.clock + 1 }, n)

/-- Modelled from the spec: `PUT /notes/{id}` replaces the text and
refreshes `updated_at` of the record with that id and returns the updated
record; a missing id is a non-2xx failure. -/
def Store.updateNote (st : Store) (id : Nat) (t : String) : Store × Except String Note :=
  match st.table.find? (fun n => n.id == id) with
  | some n =>
      let u : Note := { n with text := t, updated_at := toString st.clock }
      ({ st with table := st.table.map (fun m => if m.id = id then u else m), clock := st.clock + 1 },
        Except.ok u)
  | none => (st, Except.error "Note not found")

/-- Modelled from the spec: `DELETE /notes/{id}` removes the record with
that id; a missing id is a non-2xx failure. -/
def Store.removeNote (st : Store) (id : Nat) : Store × Except String DeleteResp :=
  if st.table.any (fun n => n.id == id) then
    ({ st with table := st.table.filter (fun n => n.id != id) }, Except.ok { deleted := true, id := id })
  else (st, Except.error "Note not found")

deriving instance DecidableEq for Except

/-- A store response in flight: the payload the suspended continuation of
the issuing operation will consume on arrival.  `del` also carries the id
captured by the `deleteNote` closure. -/
inductive Pend where
  | load (r : Except String (List Note))
  | create (r : Except String Note)
  | save (r : Except String Note)
  | del (id : Nat) (r : Except String DeleteResp)
deriving Repr, DecidableEq

/-- Run the continuation of the operation that issued a pending response. -/
def applyPend (s : AppState) : Pend → AppState
  | Pend.load r => loadNotes_complete s r
  | Pend.create r => addNote_complete s r
  | Pend.save r => saveEdit_complete s r
  | Pend.del id r => deleteNote_complete s id r

/-- A configuration of the interleaved system: client state, store state,
and the responses computed by the store but not yet delivered. -/
structure Config where
  app : AppState
  store : Store
  pending : List Pend
deriving Repr, DecidableEq

/-- One interleaving step (§5): a user event runs its synchronous prefix —
issuing at most one request, which the store processes immediately while
the response travels arbitrarily long — or one pending response arrives
and its continuation runs.  User events are admitted exactly when App.tsx
admits them: buttons by their `disabled` attribute, the submit and click
handlers additionally by their own internal guards. -/
inductive Step : Config → Config → Prop where
  | typeNew (c : Config) (t : String) :
      Step c { c with app := { c.app with newText := t } }
  | typeEdit (c : Config) (t : String) (h : c.app.editingId ≠ none) :
      Step c { c with app := { c.app with editingText := t } }
  | clickRefresh (c : Config) (h : c.app.isLoading = false) :
      Step c { c with
        app := loadNotes_start c.app,
        pending := c.pending ++ [Pend.load (Except.ok c.store.listNotes)] }
  | submitCreate (c : Config) (h : (addNote_start c.app).2 = true) :
      Step c
        { app := (addNote_start c.app).1,
          store := (c.store.createNote (jsTrim c.app.newText)).1,
          pending := c.pending ++ [Pend.create (Except.ok (c.store.createNote (jsTrim c.app.newText)).2)] }
  | clickEdit (c : Config) (n : Note) (hn : n ∈ c.app.notes)
      (h : editButtonDisabled c.app n = false) :
      Step c { c with app := startEdit c.app n }
  | clickCancel (c : Config) (h : c.app.editingId ≠ none) :
      Step c { c with app := cancelEdit c.app }
  | clickSave (c : Config) (id : Nat) (t : String)
      (h : (saveEdit_start c.app).2 = some (id, t)) :
      Step c
        { app := (saveEdit_start c.app).1,
          store := (c.store.updateNote id t).1,
          pending := c.pending ++ [Pend.save (c.store.updateNote id t).2] }
  | clickDelete (c : Config) (id : Nat) (hrow : id ∈ c.app.notes.map Note.id)
      (hbtn : c.app.editingId ≠ some id) (h : (deleteNote_start c.app id).2 = true) :
      Step c
        { app := (deleteNote_start c.app id).1,
          store := (c.store.removeNote id).1,
          pending := c.pending ++ [Pend.del id (c.store.removeNote id).2] }
  | deliver (c : Config) (l1 l2 : List Pend) (p : Pend) (h : c.pending = l1 ++ p :: l2) :
      Step c { c with app := applyPend c.app p, pending := l1 ++ l2 }

/-- The store as the run begins: empty table. -/
def store0 : Store := { table := [], nextId := 1, clock := 0 }

/-- The mount-time configuration: the initial `useState` values with the
mount effect's `loadNotes` request already issued (App.tsx lines 60-62). -/
def cfg0 : Config :=
  { app := loadNotes_start appInit, store := store0,
    pending := [Pend.load (Except.ok store0.listNotes)] }

/-- Configurations reachable from the mount-time configuration by any
interleaving of user events and response arrivals. -/
def Reachable (c : Config) : Prop := Relation.ReflTransGen Step cfg0 c

/-- The C3 invariant: the collection holds at most one Note per id. -/
def atMostOnePerId (l : List Note) : Prop := (l.map Note.id).Nodup

/-- One sequential (non-overlapping) operation: its request, the store's
processing of it, and the response's arrival all happen before anything
else runs.  The `Fail` variants deliver a transport failure instead of
the store's response. -/
inductive SeqStep : AppState × Store → AppState × Store → Prop where
  | typeNew (p : AppState × Store) (t : String) :
      SeqStep p ({ p.1 with newText := t }, p.2)
  | typeEdit (p : AppState × Store) (t : String) (h : p.1.editingId ≠ none) :
      SeqStep p ({ p.1 with editingText := t }, p.2)
  | load (p : AppState × Store) :
      SeqStep p (loadNotes_complete (loadNotes_start p.1) (Except.ok p.2.listNotes), p.2)
  | loadFail (p : AppState × Store) (m : String) :
      SeqStep p (loadNotes_complete (loadNotes_start p.1) (Except.error m), p.2)
  | create (p : AppState × Store) (h : (addNote_start p.1).2 = true) :
      SeqStep p
        (addNote_complete (addNote_start p.1).1
          (Except.ok (p.2.createNote (jsTrim p.1.newText)).2),
        (p.2.createNote (jsTrim p.1.newText)).1)
  | createFail (p : AppState × Store) (m : String) (h : (addNote_start p.1).2 = true) :
      SeqStep p (addNote_complete (addNote_start p.1).1 (Except.error m), p.2)
  | clickEdit (p : AppState × Store) (n : Note) (hn : n ∈ p.1.notes)
      (h : editButtonDisabled p.1 n = false) :
      SeqStep p (startEdit p.1 n, p.2)
  | cancel (p : AppState × Store) (h : p.1.editingId ≠ none) :
      SeqStep p (cancelEdit p.1, p.2)
  | save (p : AppState × Store) (id : Nat) (t : String)
      (h : (saveEdit_start p.1).2 = some (id, t)) :
      SeqStep p
        (saveEdit_complete (saveEdit_start p.1).1 (p.2.updateNote id t).2,
        (p.2.updateNote id t).1)
  | saveFail (p : AppState × Store) (id : Nat) (t : String) (m : String)
      (h : (saveEdit_start p.1).2 = some (id, t)) :
      SeqStep p (saveEdit_complete (saveEdit_start p.1).1 (Except.error m), p.2)
  | del (p : AppState × Store) (id : Nat) (h : (deleteNote_start p.1 id).2 = true) :
      SeqStep p
        (deleteNote_complete (deleteNote_start p.1 id).1 id (p.2.removeNote id).2,
        (p.2.removeNote id).1)
  | delFail (p : AppState × Store) (id : Nat) (m : String)
      (h : (deleteNote_start p.1 id).2 = true) :
      SeqStep p (deleteNote_complete (deleteNote_start p.1 id).1 id (Except.error m), p.2)

/-- Well-formedness of a client/store pair: unique ids in the client
collection and in the store table, all below the store's id counter. -/
def GoodCfg (p : AppState × Store) : Prop :=
  (p.1.notes.map Note.id).Nodup ∧ (∀ n ∈ p.1.notes, n.id < p.2.nextId) ∧
  (p.2.table.map Note.id).Nodup ∧ (∀ n ∈ p.2.table, n.id < p.2.nextId)

/-- The record the store mints for the first Create of the refuting run. -/
def noteX : Note := { id := 1, text := "a", created_at := "0", updated_at := "0" }

/-- A store already holding `note1A` and `note2`, used by witnesses. -/
def storeTwo : Store := { table := [note1A, note2], nextId := 3, clock := 2 }

-- Claim theorems ------------------------------------------------------------

/-- Claim C4: for every configured base-URL override string, the request
base path equals the override with all trailing slashes removed followed
by `"/api"`; with no override it is exactly `"/api"`. -/
theorem apiBase_normalizes_trailing_slashes (u : String) :
    API_BASE (some u) = stripTrailingSlashes u ++ "/api" ∧ API_BASE none = "/api" := by
  constructor
  · by_cases h : u = ""
    · subst h; rfl
    · simp [API_BASE, h]
  · rfl

/-- Claim C9: a non-2xx response surfaces the body text when non-empty,
and otherwise exactly the synthesized message with the status code. -/
theorem api_error_message_spec (status : Nat) (body : String)
    (h : resOk status = false) :
    (body ≠ "" → apiError status body = some body) ∧
    apiError status "" = some ("Request failed (" ++ toString status ++ ")") := by
  constructor
  · intro hb; simp [apiError, h, apiErrorMessage, hb]
  · simp [apiError, h, apiErrorMessage]

/-- Witness for C9 at status 404. -/
theorem api_error_message_spec_witness :
    apiError 404 "boom" = some "boom" ∧
    apiError 404 "" = some ("Request failed (" ++ toString 404 ++ ")") := by
  have h := api_error_message_spec 404 "boom" (by decide)
  have h2 := api_error_message_spec 404 "" (by decide)
  exact ⟨h.1 (by decide), h2.2⟩

/-- Claim C10: every successful SaveEdit completion unconditionally runs
`cancelEdit`, so whatever session is open at that moment is closed:
`editingId` becomes none, the draft empties, `savingEdit` becomes false. -/
theorem saveEdit_success_closes_session (s : AppState) (updated : Note) :
    (saveEdit_complete s (Except.ok updated)).editingId = none ∧
    (saveEdit_complete s (Except.ok updated)).editingText = "" ∧
    (saveEdit_complete s (Except.ok updated)).savingEdit = false :=
  ⟨rfl, rfl, rfl⟩

/-- Claim C5: if SaveEdit's request fails, the session id and draft are
unchanged, `savingEdit` is false, and the error message is stored. -/
theorem saveEdit_failure_preserves_session (s : AppState) (m : String)
    (h : s.editingId ≠ none) :
    (saveEdit_complete s (Except.error m)).editingId = s.editingId ∧
    (saveEdit_complete s (Except.error m)).editingText = s.editingText ∧
    (saveEdit_complete s (Except.error m)).savingEdit = false ∧
    (saveEdit_complete s (Except.error m)).err = m :=
  ⟨rfl, rfl, rfl, rfl⟩

/-- Witness for C5: open session on id 5 with draft `"hello"`. -/
theorem saveEdit_failure_preserves_session_witness :
    (saveEdit_complete editingState (Except.error "boom")).editingId = some 5 ∧
    (saveEdit_complete editingState (Except.error "boom")).editingText = "hello" ∧
    (saveEdit_complete editingState (Except.error "boom")).savingEdit = false ∧
    (saveEdit_complete editingState (Except.error "boom")).err = "boom" := by
  have h := saveEdit_failure_preserves_session editingState "boom" (by decide)
  exact ⟨h.1, h.2.1, h.2.2.1, h.2.2.2⟩

/-- Claim C2: while an edit session is active, clicking Edit on any row is
rejected (the button is disabled) and changes no state. -/
theorem startEdit_rejected_when_editing (s : AppState) (n : Note)
    (h : s.editingId ≠ none) :
    clickEditButton s n = s := by
  have hs : s.editingId.isSome = true := Option.isSome_iff_ne_none.mpr h
  simp [clickEditButton, editButtonDisabled, hs]

/-- Witness for C2: a state editing id 5 rejects a click on another row. -/
theorem startEdit_rejected_when_editing_witness :
    clickEditButton editingState note1A = editingState :=
  startEdit_rejected_when_editing editingState note1A (by decide)

/-- Claim C7: when the trimmed text is empty or the operation's busy flag
is already set, Create and SaveEdit issue no request and change no state. -/
theorem create_and_save_guards_no_request (s : AppState) :
    ((jsTrim s.newText = "" ∨ s.isAdding = true) → addNote_start s = (s, false)) ∧
    ((jsTrim s.editingText = "" ∨ s.savingEdit = true) → saveEdit_start s = (s, none)) := by
  constructor
  · intro h
    simp only [addNote_start]
    rw [if_pos h]
  · intro h
    cases he : s.editingId with
    | none => simp [saveEdit_start, he]
    | some eid =>
        simp only [saveEdit_start, he]
        rw [if_pos h]

/-- Witness for C7: all-whitespace input draft and edit draft. -/
theorem create_and_save_guards_no_request_witness :
    addNote_start blockedState = (blockedState, false) ∧
    saveEdit_start blockedState = (blockedState, none) := by
  have h := create_and_save_guards_no_request blockedState
  exact ⟨h.1 (Or.inl (by decide)), h.2 (Or.inl (by decide))⟩

/-- Claim C1: a successful SaveEdit completion replaces, position by
position, exactly the notes whose id equals the returned record's id and
leaves every other note unchanged; applying the completion after a
mid-flight `cancelEdit` yields the same notes. -/
theorem saveEdit_success_replaces_matching_note (s : AppState) (updated : Note) :
    (saveEdit_complete s (Except.ok updated)).notes.length = s.notes.length ∧
    (∀ i (h : i < s.notes.length)
        (h2 : i < (saveEdit_complete s (Except.ok updated)).notes.length),
      (s.notes[i].id = updated.id →
        (saveEdit_complete s (Except.ok updated)).notes[i] = updated) ∧
      (s.notes[i].id ≠ updated.id →
        (saveEdit_complete s (Except.ok updated)).notes[i] = s.notes[i])) ∧
    (saveEdit_complete (cancelEdit s) (Except.ok updated)).notes =
      (saveEdit_complete s (Except.ok updated)).notes := by
  refine ⟨by simp [saveEdit_complete, cancelEdit], ?_, rfl⟩
  intro i h h2
  constructor
  · intro hid
    simp [saveEdit_complete, cancelEdit, List.getElem_map, hid]
  · intro hid
    simp [saveEdit_complete, cancelEdit, List.getElem_map, hid]

/-- Witness for C1 on `[note1A, note2]` updated by `note2B` (id 2). -/
theorem saveEdit_success_replaces_matching_note_witness :
    (saveEdit_complete twoNotesState (Except.ok note2B)).notes.get
        ⟨1, by decide⟩ = note2B ∧
    (saveEdit_complete twoNotesState (Except.ok note2B)).notes.get
        ⟨0, by decide⟩ = note1A := by
  have h := saveEdit_success_replaces_matching_note twoNotesState note2B
  exact ⟨(h.2.1 1 (by decide) (by decide)).1 (by decide),
         (h.2.1 0 (by decide) (by decide)).2 (by decide)⟩

/-- Claim C6: a successful Delete removes exactly the notes carrying the
target id (the rest keep their order), closes a matching edit session,
and clears `deletingId` on success and on failure alike. -/
theorem deleteNote_success_spec (s : AppState) (id : Nat) (d : DeleteResp) (m : String) :
    (deleteNote_complete s id (Except.ok d)).notes =
      s.notes.filter (fun n => n.id != id) ∧
    List.Sublist (deleteNote_complete s id (Except.ok d)).notes s.notes ∧
    (∀ n ∈ (deleteNote_complete s id (Except.ok d)).notes, n.id ≠ id) ∧
    (∀ n ∈ s.notes, n.id ≠ id → n ∈ (deleteNote_complete s id (Except.ok d)).notes) ∧
    (s.editingId = some id →
      (deleteNote_complete s id (Except.ok d)).editingId = none ∧
      (deleteNote_complete s id (Except.ok d)).savingEdit = false) ∧
    (deleteNote_complete s id (Except.ok d)).deletingId = none ∧
    (deleteNote_complete s id (Except.error m)).deletingId = none := by
  have hnotes : (deleteNote_complete s id (Except.ok d)).notes =
      s.notes.filter (fun n => n.id != id) := by
    by_cases h : s.editingId = some id <;> simp [deleteNote_complete, cancelEdit, h]
  refine ⟨hnotes, ?_, ?_, ?_, ?_, ?_, rfl⟩
  · rw [hnotes]; exact List.filter_sublist s.notes
  · intro n hn
    rw [hnotes] at hn
    have := (List.mem_filter.mp hn).2
    simpa using this
  · intro n hn hne
    rw [hnotes]
    exact List.mem_filter.mpr ⟨hn, by simpa using hne⟩
  · intro h
    constructor <;> simp [deleteNote_complete, cancelEdit, h]
  · by_cases h : s.editingId = some id <;> simp [deleteNote_complete, cancelEdit, h]

/-- Witness for C6: deleting id 1 from `[note1A, note2]` leaves `[note2]`,
and deleting id 5 while editing id 5 closes the session. -/
theorem deleteNote_success_spec_witness :
    (deleteNote_complete twoNotesState 1 (Except.ok { deleted := true, id := 1 })).notes =
      [note2] ∧
    (deleteNote_complete editingState 5 (Except.ok { deleted := true, id := 5 })).editingId =
      none := by
  have h1 := deleteNote_success_spec twoNotesState 1 { deleted := true, id := 1 } "x"
  have h2 := deleteNote_success_spec editingState 5 { deleted := true, id := 5 } "x"
  refine ⟨?_, (h2.2.2.2.2.1 (by decide)).1⟩
  rw [h1.1]; decide

/-- Claim C8 (amended): a failing Load completion, from every state, sets
`err` to the failure message and clears `isLoading`, leaving every other
field (notes, input draft, edit-session fields) exactly as before the
attempt; the cleared flag equals its pre-attempt value whenever the load
began idle.  A failing Create or Delete completion restores the whole
state except `err`, their own guards forcing the idle start. -/
theorem failing_ops_restore_state (s : AppState) (m : String) :
    loadNotes_complete (loadNotes_start s) (Except.error m) =
      { s with err := m, isLoading := false } ∧
    (s.isLoading = false →
      loadNotes_complete (loadNotes_start s) (Except.error m) = { s with err := m }) ∧
    ((addNote_start s).2 = true →
      addNote_complete (addNote_start s).1 (Except.error m) = { s with err := m }) ∧
    (∀ id, (deleteNote_start s id).2 = true →
      deleteNote_complete (deleteNote_start s id).1 id (Except.error m) = { s with err := m }) := by
  refine ⟨rfl, ?_, ?_, ?_⟩
  · intro h
    cases s
    simp_all [loadNotes_start, loadNotes_complete]
  · intro h
    have hg : ¬(jsTrim s.newText = "" ∨ s.isAdding = true) := by
      intro hc
      simp only [addNote_start] at h
      rw [if_pos hc] at h
      exact Bool.false_ne_true h
    have ha : s.isAdding = false := by
      cases hb : s.isAdding
      · rfl
      · exact absurd (Or.inr hb) hg
    simp only [addNote_start]
    rw [if_neg hg]
    cases s
    simp_all [addNote_complete]
  · intro id h
    have hd : s.deletingId.isSome = false := by
      cases hb : s.deletingId.isSome
      · rfl
      · simp only [deleteNote_start] at h
        rw [if_pos hb] at h
        exact absurd h Bool.false_ne_true
    have hd2 : s.deletingId = none := Option.not_isSome_iff_eq_none.mp (by simp [hd])
    simp only [deleteNote_start]
    rw [if_neg (by simp [hd])]
    cases s
    simp_all [deleteNote_complete]

/-- Witness for C8's amended theorem: the unconditional Load equation at
the busy mount-time state, the rest at an idle state. -/
theorem failing_ops_restore_state_witness :
    loadNotes_complete (loadNotes_start appInit) (Except.error "boom") =
      { appInit with err := "boom", isLoading := false } ∧
    loadNotes_complete (loadNotes_start idleState) (Except.error "boom") =
      { idleState with err := "boom" } ∧
    addNote_complete (addNote_start idleState).1 (Except.error "boom") =
      { idleState with err := "boom" } ∧
    deleteNote_complete (deleteNote_start idleState 1).1 1 (Except.error "boom") =
      { idleState with err := "boom" } := by
  have h0 := failing_ops_restore_state appInit "boom"
  have h := failing_ops_restore_state idleState "boom"
  exact ⟨h0.1, h.2.1 (by decide), h.2.2.1 (by decide), h.2.2.2 1 (by decide)⟩

/-- Counterexample for C8 as stated: a Load begun while `isLoading` is
already true (exactly the mount-time situation, where `isLoading` is
initialized to true and the mount effect runs `loadNotes`) ends, on
failure, with `isLoading = false`, not with its pre-attempt value. -/
theorem load_failure_busy_flag_counterexample :
    (loadNotes_complete (loadNotes_start appInit) (Except.error "boom")).isLoading ≠
      appInit.isLoading := by decide

/-- Counterexample to C3 as stated: Create is issued; Refresh is clicked
while the Create response is still in flight; the Load response (already
listing the created note) arrives and is applied first; the Create
response arrives last and prepends the note a second time, so the local
collection holds two notes with id 1. -/
theorem interleaving_duplicates_note_ids :
    ∃ c : Config, Reachable c ∧ ¬ atMostOnePerId c.app.notes := by
  have t0 : Relation.ReflTransGen Step cfg0 cfg0 := Relation.ReflTransGen.refl
  have t1 := t0.tail (Step.deliver cfg0 [] [] (Pend.load (Except.ok store0.listNotes)) (by decide))
  have t2 := t1.tail (Step.typeNew _ "a")
  have t3 := t2.tail (Step.submitCreate _ (by decide))
  have t4 := t3.tail (Step.clickRefresh _ (by decide))
  have t5 := t4.tail
    (Step.deliver _ [Pend.create (Except.ok noteX)] [] (Pend.load (Except.ok [noteX])) (by decide))
  have t6 := t5.tail (Step.deliver _ [] [] (Pend.create (Except.ok noteX)) (by decide))
  refine ⟨_, t6, ?_⟩
  unfold atMostOnePerId
  decide

/-- The synchronous prefix of `addNote` never changes `notes`. -/
theorem addNote_start_notes (s : AppState) : (addNote_start s).1.notes = s.notes := by
  simp only [addNote_start]
  split <;> rfl

/-- The synchronous prefix of `saveEdit` never changes `notes`. -/
theorem saveEdit_start_notes (s : AppState) : (saveEdit_start s).1.notes = s.notes := by
  cases he : s.editingId with
  | none => simp [saveEdit_start, he]
  | some eid =>
      simp only [saveEdit_start, he]
      split <;> rfl

/-- The synchronous prefix of `deleteNote` never changes `notes`. -/
theorem deleteNote_start_notes (s : AppState) (id : Nat) :
    (deleteNote_start s id).1.notes = s.notes := by
  simp only [deleteNote_start]
  split <;> rfl

/-- A successful delete completion filters the target id out of `notes`,
whether or not an edit session was open on it. -/
theorem deleteNote_complete_ok_notes (s : AppState) (id : Nat) (d : DeleteResp) :
    (deleteNote_complete s id (Except.ok d)).notes = s.notes.filter (fun n => n.id != id) := by
  by_cases h : s.editingId = some id <;> simp [deleteNote_complete, cancelEdit, h]

/-- Replacing the notes matching a fixed id by a record carrying that same
id leaves the id sequence unchanged. -/
theorem replace_map_ids (l : List Note) (u : Note) (idv : Nat) (hu : u.id = idv) :
    (l.map (fun n => if n.id = idv then u else n)).map Note.id = l.map Note.id := by
  induction l with
  | nil => rfl
  | cons a l ih =>
      simp only [List.map_cons, ih, List.cons.injEq, and_true]
      by_cases h : a.id = idv
      · simp [h, hu]
      · simp [h]

/-- Every member of such a replacement shares its id with a source note. -/
theorem replace_map_mem_id (l : List Note) (u : Note) (idv : Nat) (hu : u.id = idv)
    (x : Note) (hx : x ∈ l.map (fun n => if n.id = idv then u else n)) :
    ∃ n ∈ l, x.id = n.id := by
  obtain ⟨n, hn, rfl⟩ := List.mem_map.mp hx
  refine ⟨n, hn, ?_⟩
  by_cases h : n.id = idv
  · simp [h, hu]
  · simp [h]

/-- A successful save completion leaves the id sequence of `notes`
unchanged. -/
theorem saveEdit_complete_ok_ids (s : AppState) (u : Note) :
    (saveEdit_complete s (Except.ok u)).notes.map Note.id = s.notes.map Note.id := by
  simp only [saveEdit_complete, cancelEdit]
  exact replace_map_ids s.notes u u.id rfl

/-- Every note left by a successful save completion shares its id with a
prior note. -/
theorem saveEdit_complete_ok_mem (s : AppState) (u : Note) (x : Note)
    (hx : x ∈ (saveEdit_complete s (Except.ok u)).notes) : ∃ n ∈ s.notes, x.id = n.id := by
  simp only [saveEdit_complete, cancelEdit] at hx
  exact replace_map_mem_id s.notes u u.id rfl x hx

/-- One sequential operation preserves well-formedness. -/
theorem GoodCfg_step {p q : AppState × Store} (hg : GoodCfg p) (hs : SeqStep p q) :
    GoodCfg q := by
  obtain ⟨h1, h2, h3, h4⟩ := hg
  cases hs with
  | typeNew t => exact ⟨h1, h2, h3, h4⟩
  | typeEdit t h => exact ⟨h1, h2, h3, h4⟩
  | load => exact ⟨h3, h4, h3, h4⟩
  | loadFail m => exact ⟨h1, h2, h3, h4⟩
  | create h =>
      have hng : ¬(jsTrim p.1.newText = "" ∨ p.1.isAdding = true) := by
        intro hc
        simp only [addNote_start] at h
        rw [if_pos hc] at h
        exact Bool.false_ne_true h
      have hstart : (addNote_start p.1).1 = { p.1 with err := "", isAdding := true } := by
        simp only [addNote_start]
        rw [if_neg hng]
      refine ⟨?_, ?_, ?_, ?_⟩
      · rw [hstart]
        simp only [addNote_complete, Store.createNote, List.map_cons]
        refine List.nodup_cons.mpr ⟨?_, h1⟩
        intro hmem
        obtain ⟨n, hn, hid⟩ := List.mem_map.mp hmem
        exact absurd hid (Nat.ne_of_lt (h2 n hn))
      · rw [hstart]
        intro n hn
        simp only [addNote_complete, Store.createNote, List.mem_cons] at hn
        rcases hn with rfl | hn
        · simp [Store.createNote]
        · have := h2 n hn
          simp only [Store.createNote]
          omega
      · simp only [Store.createNote, List.map_append]
        refine List.Nodup.append h3 (List.nodup_singleton _) ?_
        intro a ha hb
        simp only [List.map_cons, List.map_nil, List.mem_singleton] at hb
        obtain ⟨n, hn, hid⟩ := List.mem_map.mp ha
        subst hb
        exact absurd hid (Nat.ne_of_lt (h4 n hn))
      · intro n hn
        simp only [Store.createNote, List.mem_append, List.mem_singleton] at hn
        rcases hn with hn | rfl
        · have := h4 n hn
          simp only [Store.createNote]
          omega
        · simp [Store.createNote]
  | createFail m h =>
      have hn : (addNote_complete (addNote_start p.1).1 (Except.error m)).notes = p.1.notes := by
        simp only [addNote_complete]
        exact addNote_start_notes p.1
      refine ⟨?_, ?_, h3, h4⟩
      · rw [hn]; exact h1
      · intro n hm; rw [hn] at hm; exact h2 n hm
  | clickEdit n hn h => exact ⟨h1, h2, h3, h4⟩
  | cancel h => exact ⟨h1, h2, h3, h4⟩
  | save id t h =>
      cases hf : p.2.table.find? (fun n => n.id == id) with
      | none =>
          simp only [Store.updateNote, hf]
          have hcn : (saveEdit_complete (saveEdit_start p.1).1
              (Except.error "Note not found")).notes = p.1.notes := by
            simp only [saveEdit_complete]
            exact saveEdit_start_notes p.1
          refine ⟨?_, ?_, h3, h4⟩
          · rw [hcn]; exact h1
          · intro n hm; rw [hcn] at hm; exact h2 n hm
      | some n =>
          have hnid : n.id = id := by
            have hpn := List.find?_some hf
            simpa using hpn
          simp only [Store.updateNote, hf]
          refine ⟨?_, ?_, ?_, ?_⟩
          · rw [saveEdit_complete_ok_ids, saveEdit_start_notes]
            exact h1
          · intro x hx
            obtain ⟨nn, hnn, hxid⟩ := saveEdit_complete_ok_mem _ _ _ hx
            rw [saveEdit_start_notes] at hnn
            rw [hxid]
            exact h2 nn hnn
          · dsimp only
            have hu : (Note.mk n.id t n.created_at (toString p.2.clock)).id = id := hnid
            rw [replace_map_ids p.2.table _ id hu]
            exact h3
          · intro x hx
            dsimp only at hx ⊢
            have hu : (Note.mk n.id t n.created_at (toString p.2.clock)).id = id := hnid
            obtain ⟨nn, hnn, hxid⟩ := replace_map_mem_id p.2.table _ id hu x hx
            rw [hxid]
            exact h4 nn hnn
  | saveFail id t m h =>
      have hcn : (saveEdit_complete (saveEdit_start p.1).1 (Except.error m)).notes =
          p.1.notes := by
        simp only [saveEdit_complete]
        exact saveEdit_start_notes p.1
      refine ⟨?_, ?_, h3, h4⟩
      · rw [hcn]; exact h1
      · intro n hm; rw [hcn] at hm; exact h2 n hm
  | del id h =>
      cases hf : p.2.table.any (fun n => n.id == id) with
      | true =>
          simp only [Store.removeNote, hf]
          rw [if_pos trivial]
          have hcn := deleteNote_complete_ok_notes (deleteNote_start p.1 id).1 id
            { deleted := true, id := id }
          refine ⟨?_, ?_, ?_, ?_⟩
          · dsimp only
            rw [hcn, deleteNote_start_notes]
            exact List.Nodup.sublist (List.Sublist.map Note.id (List.filter_sublist _)) h1
          · intro x hx
            dsimp only at hx ⊢
            rw [hcn, deleteNote_start_notes] at hx
            exact h2 x (List.mem_of_mem_filter hx)
          · dsimp only
            exact List.Nodup.sublist (List.Sublist.map Note.id (List.filter_sublist _)) h3
          · intro x hx
            dsimp only at hx ⊢
            exact h4 x (List.mem_of_mem_filter hx)
      | false =>
          simp only [Store.removeNote, hf]
          rw [if_neg Bool.false_ne_true]
          have hcn : (deleteNote_complete (deleteNote_start p.1 id).1 id
              (Except.error "Note not found")).notes = p.1.notes := by
            simp only [deleteNote_complete]
            exact deleteNote_start_notes p.1 id
          refine ⟨?_, ?_, h3, h4⟩
          · dsimp only
            rw [hcn]; exact h1
          · intro n hm
            dsimp only at hm ⊢
            rw [hcn] at hm
            exact h2 n hm
  | delFail id m h =>
      have hcn : (deleteNote_complete (deleteNote_start p.1 id).1 id
          (Except.error m)).notes = p.1.notes := by
        simp only [deleteNote_complete]
        exact deleteNote_start_notes p.1 id
      refine ⟨?_, ?_, h3, h4⟩
      · rw [hcn]; exact h1
      · intro n hm; rw [hcn] at hm; exact h2 n hm

/-- Claim C3 (amended): when operations never overlap — each awaited store
response is delivered before the next operation is invoked — every state
reachable from a well-formed client/store pair keeps at most one Note per
id.  The fully interleaved claim is refuted by
`interleaving_duplicates_note_ids`. -/
theorem seq_execution_notes_ids_nodup (p q : AppState × Store) (hg : GoodCfg p)
    (hr : Relation.ReflTransGen SeqStep p q) : atMostOnePerId q.1.notes := by
  have hq : GoodCfg q := by
    induction hr with
    | refl => exact hg
    | tail hab hbc ih => exact GoodCfg_step ih hbc
  exact hq.1

/-- Witness for C3's amended theorem at a two-note well-formed pair. -/
theorem seq_execution_notes_ids_nodup_witness :
    atMostOnePerId twoNotesState.notes :=
  seq_execution_notes_ids_nodup (twoNotesState, storeTwo) (twoNotesState, storeTwo)
    (by unfold GoodCfg; decide) Relation.ReflTransGen.refl
